import Mathlib

/-!
Verification of the bpmn-print extraction core against its specification.

The development shallowly embeds the XML tree walked by the extractor
(`bpmn_data.py`, `bpmn_diagram.py`, `diagram_model.py`, `pdf.py`) and the
extraction functions themselves, then proves the specified properties.
Attributes are association lists, element text is an optional string, and
Python truthiness of optional strings is made explicit.
-/

namespace BpmnPrint

/-- Shallow embedding of an XML element as parsed by lxml: a fully
qualified tag (Clark notation), an attribute list, the text directly
under the element, and the child elements in document order. -/
inductive Xml where
  | elem (tag : String) (attrs : List (String × String)) (text : Option String)
      (children : List Xml)

def Xml.tag : Xml → String
  | .elem t _ _ _ => t

def Xml.attrs : Xml → List (String × String)
  | .elem _ a _ _ => a

def Xml.text : Xml → Option String
  | .elem _ _ s _ => s

def Xml.children : Xml → List Xml
  | .elem _ _ _ cs => cs

/-- Attribute lookup, `element.get(key)` in lxml: `none` when absent. -/
def getAttr (e : Xml) (k : String) : Option String :=
  (e.attrs.find? (fun p => p.1 == k)).map Prod.snd

/-- Attribute lookup with a default, `element.get(key, default)`. -/
def getAttrD (e : Xml) (k d : String) : String :=
  (getAttr e k).getD d

/-- Python truthiness of an optional string: `None` and `""` are falsy. -/
def truthyOpt : Option String → Bool
  | some s => !(s == "")
  | none => false

/-- Rendering of an optional string inside a Python f-string:
`None` prints as "None". -/
def pyShowOpt : Option String → String
  | some s => s
  | none => "None"

mutual

/-- Proper descendants of an element in document (pre)order, each paired
with its ancestor chain, nearest parent first.  This models iteration of
`root.findall(".//tag")` together with `getparent()` walks. -/
def descWithAnc (anc : List Xml) : Xml → List (Xml × List Xml)
  | .elem t a s cs => descWithAncList (Xml.elem t a s cs :: anc) cs

def descWithAncList (anc : List Xml) : List Xml → List (Xml × List Xml)
  | [] => []
  | x :: xs => (x, anc) :: (descWithAnc anc x ++ descWithAncList anc xs)

end

/-- All proper descendants of `root` in document order. -/
def xmlDescendants (root : Xml) : List Xml :=
  (descWithAnc [] root).map Prod.fst

/-- Embedding of `root.findall(".//" + tag, ns)`: descendants with the
given qualified tag, in document order, paired with their ancestors. -/
def findallCtx (root : Xml) (tag : String) : List (Xml × List Xml) :=
  (descWithAnc [] root).filter (fun p => p.1.tag == tag)

/-- Embedding of `root.findall(".//" + tag, ns)` when the ancestors are
not needed. -/
def findall (root : Xml) (tag : String) : List Xml :=
  (findallCtx root tag).map Prod.fst

/-- Whitespace for Python's `str.strip()` and the `\s` regex class
(ASCII part): space, tab, newline, carriage return, vertical tab,
form feed. -/
def pyIsSpace (c : Char) : Bool :=
  c == ' ' || c == '\t' || c == '\n' || c == '\r' ||
    c == Char.ofNat 11 || c == Char.ofNat 12

/-- Embedding of Python's `str.strip()`. -/
def pyStrip (s : String) : String :=
  String.mk (((s.data.dropWhile pyIsSpace).reverse.dropWhile pyIsSpace).reverse)

/-- The character `{`. -/
def braceChar : Char := Char.ofNat 123

/-- Recursive core of the regex search for `[#$]\x7b\s` over the
character list of the candidate text. -/
def isJexlAux : List Char → Bool
  | a :: b :: c :: rest =>
      ((a == '#' || a == '$') && b == braceChar && pyIsSpace c) ||
        isJexlAux (b :: c :: rest)
  | _ => false

/-- Embedding of `_is_jexl_expression`: `JEXL_PATTERN.search(text)` with
`JEXL_PATTERN = re.compile(r"[#$]\x7b\s")`. -/
def is_jexl_expression (s : String) : Bool :=
  isJexlAux s.data

/-- Lookup in a Python dict built from an insertion list: the last
binding of a key wins, as in a dict comprehension. -/
def dictGet (m : List (String × String)) (k : String) : Option String :=
  (m.reverse.find? (fun p => p.1 == k)).map Prod.snd

/-- Embedding of `dict.get(key, default)`. -/
def dictGetD (m : List (String × String)) (k d : String) : String :=
  (dictGet m k).getD d

/-- BPMN 2.0 model namespace URI. -/
def bpmnNs : String := "http://www.omg.org/spec/BPMN/20100524/MODEL"

/-- Camunda extension namespace URI. -/
def camundaNs : String := "http://camunda.org/schema/1.0/bpmn"

/-- Clark-notation qualified tag, as lxml stores tags of namespaced
elements. -/
def qualTag (ns n : String) : String := "\x7b" ++ ns ++ "\x7d" ++ n

def callActivityTag : String := qualTag bpmnNs "callActivity"
def serviceTaskTag : String := qualTag bpmnNs "serviceTask"
def startEventTag : String := qualTag bpmnNs "startEvent"
def endEventTag : String := qualTag bpmnNs "endEvent"
def taskTag : String := qualTag bpmnNs "task"
def exclusiveGatewayTag : String := qualTag bpmnNs "exclusiveGateway"
def parallelGatewayTag : String := qualTag bpmnNs "parallelGateway"
def sequenceFlowTag : String := qualTag bpmnNs "sequenceFlow"
def conditionExpressionTag : String := qualTag bpmnNs "conditionExpression"
def camundaScriptTag : String := qualTag camundaNs "script"
def camundaInputParameterTag : String := qualTag camundaNs "inputParameter"

/-- The qualified `camunda:class` attribute key (`CAMUNDA_CLASS_ATTR`). -/
def CAMUNDA_CLASS_ATTR : String := qualTag camundaNs "class"

def UNKNOWN_VALUE : String := "unknown"
def DEFAULT_SCRIPT_NAME : String := "script"
def DEFAULT_PARAM_NAME : String := "inputParameter"
def JEXL_SCRIPT_PLACEHOLDER : String := "[See JEXL Scripts]"

def NODE_TYPE_CALL_ACTIVITY : String := "callActivity"
def NODE_TYPE_SERVICE_TASK : String := "serviceTask"

/-- Embedding of `xml_utils.build_id_to_name_mapping`: a dict from the
`id` of every element carrying one (namespace-agnostic `.//*[@id]`) to
its `name` attribute, falling back to the id. -/
def build_id_to_name_mapping (root : Xml) : List (String × String) :=
  ((xmlDescendants root).filter (fun e => (getAttr e "id").isSome)).map
    (fun e => (getAttrD e "id" "", getAttrD e "name" (getAttrD e "id" "")))

/-- Modelled from the spec: the immutable `XmlContext`/`BpmnContext`
produced by the XML context loader.  `pretty_print.py` and the test
suite reference `xml_utils.BpmnContext`, but the class itself is absent
from the source snapshot; per the spec it packages the parsed document
root with the id→name index. -/
structure BpmnContext where
  root : Xml
  id_to_name : List (String × String)

/-- Modelled from the spec: `xml_utils.create_bpmn_context`, referenced
by `pretty_print.convert_bpmn_to_pdf` and the tests but absent from the
source snapshot.  Per the spec, the loader parses the file (file I/O is
outside the embedding, so the parsed root is the argument) and builds
the id→name index once. -/
def create_bpmn_context (root : Xml) : BpmnContext :=
  ⟨root, build_id_to_name_mapping root⟩

/-- Embedding of `bpmn_data.Node`: an activity node of the data model. -/
structure Node where
  name : String
  type : String
  target : String
deriving Repr, DecidableEq

/-- Embedding of `bpmn_data.Parameter`. -/
structure Parameter where
  node_name : String
  param_name : String
  value : String
  has_script : Bool
deriving Repr, DecidableEq

/-- Embedding of `bpmn_data.Script`. -/
structure Script where
  text : String
  node_name : String
  param_name : String
deriving Repr, DecidableEq

/-- Embedding of `bpmn_data.BpmnExtractResult`. -/
structure BpmnExtractResult where
  nodes : List Node
  parameters : List Parameter
  scripts : List Script
deriving Repr, DecidableEq

/-- Embedding of `bpmn_data.find_parent_with_id`: starting at the
element itself, the first element of the ancestor walk whose attribute
dict contains the key `id` supplies the result; if none does, the fixed
`UNKNOWN_VALUE` sentinel is returned.  The ancestor chain (nearest
parent first) stands in for lxml's `getparent()` pointers. -/
def find_parent_with_id (e : Xml) (anc : List Xml) : String :=
  match (e :: anc).find? (fun x => (getAttr x "id").isSome) with
  | some x => getAttrD x "id" ""
  | none => UNKNOWN_VALUE

/-- Embedding of `bpmn_data._get_element_name`. -/
def get_element_name (e : Xml) (default : String) : String :=
  getAttrD e "name" (getAttrD e "id" default)

/-- Embedding of `bpmn_data._simplify_class_name`:
`class_name.rsplit(".", 1)[-1] if class_name else ""`. -/
def simplify_class_name (s : String) : String :=
  if s == "" then "" else (s.splitOn ".").getLastD ""

/-- Embedding of `bpmn_data._get_node_info`. -/
def get_node_info (e : Xml) (anc : List Xml) (id_to_name : List (String × String)) :
    String × String :=
  let node_id := find_parent_with_id e anc
  (dictGetD id_to_name node_id node_id, getAttrD e "name" DEFAULT_PARAM_NAME)

/-- Embedding of `bpmn_data._process_script_element`. -/
def process_script_element (node_name param_name : String) :
    Parameter × Option Script :=
  (⟨node_name, param_name, JEXL_SCRIPT_PLACEHOLDER, true⟩, none)

/-- Embedding of `bpmn_data._process_text_content`. -/
def process_text_content (text node_name param_name : String) :
    Parameter × Option Script :=
  if is_jexl_expression text then
    (⟨node_name, param_name, JEXL_SCRIPT_PLACEHOLDER, true⟩,
      some ⟨text, node_name, param_name⟩)
  else
    (⟨node_name, param_name, text, false⟩, none)

/-- Embedding of `bpmn_data._create_call_activity_node`. -/
def create_call_activity_node (e : Xml) : Node :=
  ⟨get_element_name e UNKNOWN_VALUE, NODE_TYPE_CALL_ACTIVITY,
    getAttrD e "calledElement" ""⟩

/-- Embedding of `bpmn_data._extract_call_activities`. -/
def extract_call_activities (root : Xml) : List Node :=
  (findall root callActivityTag).map create_call_activity_node

/-- Embedding of `bpmn_data._create_service_task_node`. -/
def create_service_task_node (e : Xml) : Node :=
  ⟨get_element_name e UNKNOWN_VALUE, NODE_TYPE_SERVICE_TASK,
    simplify_class_name (getAttrD e CAMUNDA_CLASS_ATTR "")⟩

/-- Embedding of `bpmn_data._extract_service_tasks`. -/
def extract_service_tasks (root : Xml) : List Node :=
  (findall root serviceTaskTag).map create_service_task_node

/-- Embedding of `bpmn_data._extract_script_elements`.  Every match of
`.//camunda:script` is a proper descendant, so its ancestor chain is
nonempty and the `[]` branch of the parent lookup is unreachable. -/
def extract_script_elements (root : Xml) (id_to_name : List (String × String)) :
    List Script :=
  (findallCtx root camundaScriptTag).map (fun p =>
    let node_id := find_parent_with_id p.1 p.2
    let node_name := dictGetD id_to_name node_id node_id
    let param_name :=
      match p.2 with
      | parent :: _ => getAttrD parent "name" DEFAULT_SCRIPT_NAME
      | [] => DEFAULT_SCRIPT_NAME
    ⟨(p.1.text).getD "", node_name, param_name⟩)

/-- Check of `inp.find(XPATH_CAMUNDA_SCRIPT, BPMN_NS) is not None`: the
parameter element has a `camunda:script` element among its
descendants. -/
def has_script_elem (inp : Xml) : Bool :=
  !(findallCtx inp camundaScriptTag).isEmpty

/-- Loop body of `bpmn_data._extract_input_parameters` (the helper the
test suite calls `_process_single_input_parameter`): one input-parameter
element with its ancestors yields one `Parameter` and possibly one
`Script`. -/
def process_single_input_parameter (id_to_name : List (String × String))
    (p : Xml × List Xml) : Parameter × Option Script :=
  let info := get_node_info p.1 p.2 id_to_name
  if has_script_elem p.1 then
    process_script_element info.1 info.2
  else if truthyOpt p.1.text then
    process_text_content ((p.1.text).getD "") info.1 info.2
  else
    (⟨info.1, info.2, "", false⟩, none)

/-- Embedding of `bpmn_data._extract_input_parameters`: the for-loop
accumulating `parameters` and `scripts`, as a left fold over the
`.//camunda:inputParameter` matches in document order. -/
def extract_input_parameters (root : Xml) (id_to_name : List (String × String)) :
    List Parameter × List Script :=
  (findallCtx root camundaInputParameterTag).foldl
    (fun acc p =>
      let r := process_single_input_parameter id_to_name p
      (acc.1 ++ [r.1],
        match r.2 with
        | some s => acc.2 ++ [s]
        | none => acc.2))
    ([], [])

/-- Embedding of `bpmn_data.extract` in the context-consuming form used
by `pretty_print.py` and the tests (the snapshot's `extract` takes a
file path and parses it first; its body after parsing is identical). -/
def extract (ctx : BpmnContext) : BpmnExtractResult :=
  let nodes := extract_call_activities ctx.root ++ extract_service_tasks ctx.root
  let scripts := extract_script_elements ctx.root ctx.id_to_name
  let ps := extract_input_parameters ctx.root ctx.id_to_name
  ⟨nodes, ps.1, scripts ++ ps.2⟩

/-- Embedding of `diagram_model.BpmnNode`.  `element.get(ATTR_ID)` can
return `None` and, for types without a default display name, so can the
name fallback, hence the optional fields. -/
structure BpmnNode where
  node_id : Option String
  name : Option String
  node_type : String
deriving Repr, DecidableEq

/-- Embedding of `diagram_model.BpmnEdge`. -/
structure BpmnEdge where
  source_id : Option String
  target_id : Option String
  label : Option String
  condition : Option String
  condition_number : Option Nat
deriving Repr, DecidableEq

/-- Embedding of `diagram_model.BpmnDiagramModel`. -/
structure BpmnDiagramModel where
  nodes : List BpmnNode
  edges : List BpmnEdge
  id_to_name : List (String × String)
deriving Repr, DecidableEq

/-- Embedding of `bpmn_diagram._get_node_name`. -/
def get_node_name (e : Xml) (default_name : Option String)
    (node_id : Option String) : Option String :=
  match default_name with
  | some d => some (getAttrD e "name" d)
  | none =>
      match getAttr e "name" with
      | some n => some n
      | none => node_id

/-- Embedding of `bpmn_diagram._create_bpmn_node`. -/
def create_bpmn_node (e : Xml) (node_type : String)
    (default_name : Option String) : BpmnNode :=
  let node_id := getAttr e "id"
  ⟨node_id, get_node_name e default_name node_id, node_type⟩

/-- Embedding of `node_styles.NODE_TYPE_CONFIG` restricted to the parts
driving extraction: ordered entries of node type, XPath tag and default
display name (insertion order of the Python dict). -/
def NODE_TYPE_CONFIG : List (String × String × Option String) :=
  [("startEvent", startEventTag, some "Start"),
   ("endEvent", endEventTag, some "End"),
   ("task", taskTag, none),
   ("serviceTask", serviceTaskTag, none),
   ("callActivity", callActivityTag, none),
   ("exclusiveGateway", exclusiveGatewayTag, some "X"),
   ("parallelGateway", parallelGatewayTag, some "+")]

/-- Embedding of `bpmn_diagram._extract_nodes_by_type`. -/
def extract_nodes_by_type (root : Xml) (node_type tag : String)
    (default_name : Option String) : List BpmnNode :=
  (findall root tag).map (fun e => create_bpmn_node e node_type default_name)

/-- Embedding of `bpmn_diagram._extract_all_nodes`: iterate the
configuration table in order, extracting each type. -/
def extract_all_nodes (root : Xml) : List BpmnNode :=
  NODE_TYPE_CONFIG.foldl
    (fun acc c => acc ++ extract_nodes_by_type root c.1 c.2.1 c.2.2) []

/-- Embedding of `bpmn_diagram._validate_node_ids`: collect the ids of
nodes with a truthy id and a warning for each node without one. -/
def validate_node_ids (nodes : List BpmnNode) : List String × List String :=
  nodes.foldl
    (fun acc n =>
      if truthyOpt n.node_id then (acc.1 ++ [(n.node_id).getD ""], acc.2)
      else
        (acc.1,
          acc.2 ++ ["Found node with missing or empty ID: " ++ pyShowOpt n.name ++
            " (type: " ++ n.node_type ++ ")"]))
    ([], [])

/-- Warnings `bpmn_diagram._validate_edge_references` emits for one
edge: missing or dangling `sourceRef`, then missing or dangling
`targetRef`. -/
def edge_warnings (node_ids : List String) (id_to_name : List (String × String))
    (e : BpmnEdge) : List String :=
  (if !truthyOpt e.source_id then
      ["Found sequence flow with missing sourceRef"]
    else if !(node_ids.contains ((e.source_id).getD "")) then
      let sid := (e.source_id).getD ""
      ["Sequence flow references non-existent source node: " ++ sid ++
        " (" ++ dictGetD id_to_name sid sid ++ ")"]
    else []) ++
  (if !truthyOpt e.target_id then
      ["Found sequence flow with missing targetRef"]
    else if !(node_ids.contains ((e.target_id).getD "")) then
      let tid := (e.target_id).getD ""
      ["Sequence flow references non-existent target node: " ++ tid ++
        " (" ++ dictGetD id_to_name tid tid ++ ")"]
    else [])

/-- Embedding of `bpmn_diagram._validate_edge_references`: the loop over
all edges, accumulating the warnings. -/
def validate_edge_references (edges : List BpmnEdge) (node_ids : List String)
    (id_to_name : List (String × String)) : List String :=
  edges.foldl (fun acc e => acc ++ edge_warnings node_ids id_to_name e) []

/-- Text of the first `.//bpmn:conditionExpression` under a sequence
flow, as computed in `build_model`: `None` unless the element exists and
its text is truthy, in which case the stripped text. -/
def flowConditionText (flow : Xml) : Option String :=
  match (findall flow conditionExpressionTag).head? with
  | some ce => if truthyOpt ce.text then some (pyStrip (ce.text.getD "")) else none
  | none => none

/-- The `f"[\x7bcondition_number\x7d]"` label of a conditioned edge. -/
def condLabel (n : Nat) : String := "[" ++ Nat.repr n ++ "]"

/-- One iteration of `build_model`'s sequence-flow loop: builds the edge
for the flow and the updated condition counter. -/
def process_flow (counter : Nat) (flow : Xml) : BpmnEdge × Nat :=
  let source_id := getAttr flow "sourceRef"
  let target_id := getAttr flow "targetRef"
  let flow_name := getAttrD flow "name" ""
  let condition_text := flowConditionText flow
  if truthyOpt condition_text then
    (⟨source_id, target_id, some (condLabel counter), condition_text,
        some counter⟩, counter + 1)
  else if flow_name == "" then
    (⟨source_id, target_id, none, condition_text, none⟩, counter)
  else
    (⟨source_id, target_id, some flow_name, condition_text, none⟩, counter)

/-- Edge extraction over the document-ordered sequence flows, threading
the condition counter (which starts at 1 in `build_model`). -/
def build_edges (counter : Nat) : List Xml → List BpmnEdge
  | [] => []
  | f :: fs =>
      let r := process_flow counter f
      r.1 :: build_edges r.2 fs

/-- Embedding of `bpmn_diagram.build_model` in the context-consuming
form used by `pretty_print.py` and the tests (the snapshot's
`build_model` takes a file path and parses it first; its body after
parsing is identical).  `warnings.warn` calls are collected into the
second component. -/
def build_model (ctx : BpmnContext) : BpmnDiagramModel × List String :=
  let nodes := extract_all_nodes ctx.root
  let v := validate_node_ids nodes
  let edges := build_edges 1 (findall ctx.root sequenceFlowTag)
  let ws := validate_edge_references edges v.1 ctx.id_to_name
  (⟨nodes, edges, ctx.id_to_name⟩, v.2 ++ ws)

/-- Embedding of `diagram_model.Condition`. -/
structure Condition where
  number : Int
  source_name : String
  target_name : String
  expression : String
deriving Repr, DecidableEq

/-- A Python runtime value appearing in the PDF table cells. -/
inductive PyVal where
  | vInt (n : Int)
  | vStr (s : String)
deriving Repr, DecidableEq

/-- Python `str()` of a table cell value. -/
def pyStr : PyVal → String
  | .vInt n => toString n
  | .vStr s => s

/-- Attribute namespace of a `Condition` instance: the four dataclass
fields declared in `diagram_model.py`. -/
def conditionAttr (c : Condition) (a : String) : Option PyVal :=
  if a == "number" then some (.vInt c.number)
  else if a == "source_name" then some (.vStr c.source_name)
  else if a == "target_name" then some (.vStr c.target_name)
  else if a == "expression" then some (.vStr c.expression)
  else none

/-- Python attribute access on a `Condition`: an `AttributeError` when
the dataclass has no such field. -/
def conditionGetattr (c : Condition) (a : String) : Except String PyVal :=
  match conditionAttr c a with
  | some v => Except.ok v
  | none => Except.error ("AttributeError: Condition has no attribute " ++ a)

/-- Embedding of `pdf._create_condition_table` as the cell matrix it
builds: the header row, then `[str(cond.num), cond.expression]` for each
condition in list order.  Attribute errors abort with the exception. -/
def create_condition_table (conds : List Condition) :
    Except String (List (List String)) :=
  conds.foldlM
    (fun rows c => do
      let num ← conditionGetattr c "num"
      let expr ← conditionGetattr c "expression"
      pure (rows ++ [[pyStr num, pyStr expr]]))
    [["#", "Condition"]]

/-- The Branch Conditions part of `pdf._build_body`: the table is added
only when `data.branch_conditions` is truthy (nonempty). -/
def build_body_condition_table (branch_conditions : List Condition) :
    Except String (Option (List (List String))) :=
  if branch_conditions.isEmpty then Except.ok none
  else (create_condition_table branch_conditions).map some

/-- Modelled from the spec: the data-flow core of
`pretty_print.convert_bpmn_to_pdf` (file parsing, PNG rendering and PDF
I/O are outside the embedding).  The context is created once and the
same context value is consumed by the node/edge extractor and the
data/script extractor. -/
def convert_bpmn_core (root : Xml) :
    (BpmnDiagramModel × List String) × BpmnExtractResult :=
  let context := create_bpmn_context root
  (build_model context, extract context)

/-- Specification predicate for the scripting-expression rule: the text
contains `#` or `$`, immediately followed by an opening brace,
immediately followed by a whitespace character. -/
def JexlSpec (s : String) : Prop :=
  ∃ pre a b c post, s.data = pre ++ a :: b :: c :: post ∧
    (a = '#' ∨ a = '$') ∧ b = braceChar ∧ pyIsSpace c = true

/-- The four-case parameter rule as the specification words it: nested
script element wins and emits no script; else non-empty text matching
the scripting-expression pattern emits the placeholder parameter and a
script with the literal text; else non-empty text is the value; else the
value is the empty string. -/
def param_case_spec (id_to_name : List (String × String))
    (p : Xml × List Xml) : Parameter × Option Script :=
  let info := get_node_info p.1 p.2 id_to_name
  if has_script_elem p.1 then
    (⟨info.1, info.2, JEXL_SCRIPT_PLACEHOLDER, true⟩, none)
  else if truthyOpt p.1.text && is_jexl_expression ((p.1.text).getD "") then
    (⟨info.1, info.2, JEXL_SCRIPT_PLACEHOLDER, true⟩,
      some ⟨(p.1.text).getD "", info.1, info.2⟩)
  else if truthyOpt p.1.text then
    (⟨info.1, info.2, (p.1.text).getD "", false⟩, none)
  else
    (⟨info.1, info.2, "", false⟩, none)

/-- The parent walk as the specification words it: stop at the first
element of the walk carrying a NON-EMPTY `id` attribute (the source
stops at any present `id`, empty included). -/
def claim_parent_walk (e : Xml) (anc : List Xml) : String :=
  match (e :: anc).find? (fun x => truthyOpt (getAttr x "id")) with
  | some x => getAttrD x "id" ""
  | none => UNKNOWN_VALUE

/-- Node-name resolution built on the specification's walk. -/
def claim_node_name (e : Xml) (anc : List Xml)
    (m : List (String × String)) : String :=
  dictGetD m (claim_parent_walk e anc) (claim_parent_walk e anc)

/-- A `bpmn:conditionExpression` element holding the given text. -/
def condExprElem (t : String) : Xml :=
  Xml.elem conditionExpressionTag [] (some t) []

/-- A `bpmn:sequenceFlow` element with a condition expression. -/
def flowWithCond (id src tgt t : String) : Xml :=
  Xml.elem sequenceFlowTag
    [("id", id), ("sourceRef", src), ("targetRef", tgt)] none [condExprElem t]

/-- A `bpmn:sequenceFlow` element with a `name` attribute and no
condition. -/
def flowWithName (id src tgt nm : String) : Xml :=
  Xml.elem sequenceFlowTag
    [("id", id), ("sourceRef", src), ("targetRef", tgt), ("name", nm)] none []

/-- A document wrapper: `bpmn:definitions` over one `bpmn:process`. -/
def mkDoc (body : List Xml) : Xml :=
  Xml.elem (qualTag bpmnNs "definitions") [] none
    [Xml.elem (qualTag bpmnNs "process") [("id", "Process_1")] none body]

/-- Witness document for the condition-numbering claim: a conditioned
flow, an interleaved named flow without a condition, and a second
conditioned flow. -/
def c3doc : Xml :=
  mkDoc
    [flowWithCond "f1" "a" "b" "x > 1",
     flowWithName "f2" "b" "c" "go",
     flowWithCond "f3" "b" "d" "y < 2"]

/-- Counterexample document for the condition invariant claim: one flow
whose condition element contains only whitespace. -/
def c5doc : Xml :=
  mkDoc [flowWithCond "f1" "a" "b" "   "]

/-- Witness document for the error-handling claim: a task plus one flow
missing its `sourceRef` whose `targetRef` dangles. -/
def c7doc : Xml :=
  mkDoc
    [Xml.elem taskTag [("id", "T1"), ("name", "Work")] none [],
     Xml.elem sequenceFlowTag [("id", "f1"), ("targetRef", "ghost")] none []]

/-- A `camunda:inputParameter` element with text content. -/
def inputParamText (nm : String) (t : Option String) : Xml :=
  Xml.elem camundaInputParameterTag [("name", nm)] t []

/-- Witness document for the data-extraction claims: a service task with
one plain-text parameter, one inline-expression parameter, and one
parameter holding a nested script element. -/
def c10doc : Xml :=
  mkDoc
    [Xml.elem serviceTaskTag
      [("id", "ST1"), ("name", "Approve"),
       (CAMUNDA_CLASS_ATTR, "com.example.Approve")] none
      [Xml.elem (qualTag bpmnNs "extensionElements") [] none
        [Xml.elem (qualTag camundaNs "inputOutput") [] none
          [inputParamText "plain" (some "value1"),
           inputParamText "expr" (some "$\x7b x \x7d"),
           Xml.elem camundaInputParameterTag [("name", "scripted")]
             (some "ignored text")
             [Xml.elem camundaScriptTag [] (some "nested body") []]]]]]

/-- Counterexample input for the parent-walk claim: an element whose own
`id` attribute is present but empty, inside a parent carrying a real
id. -/
def c4child : Xml := Xml.elem camundaScriptTag [("id", "")] none []

/-- Parent of `c4child`, carrying the id `"P"`. -/
def c4parent : Xml :=
  Xml.elem serviceTaskTag [("id", "P")] none [c4child]

/-- The id→name table used in the parent-walk counterexample. -/
def c4table : List (String × String) := [("P", "ParentName")]

/-! Theorems.  Helper lemmas come first, then one theorem per claim with
its witness or counterexample. -/

theorem isJexlAux_iff : ∀ l : List Char, isJexlAux l = true ↔
    ∃ pre a b c post, l = pre ++ a :: b :: c :: post ∧
      (a = '#' ∨ a = '$') ∧ b = braceChar ∧ pyIsSpace c = true
  | [] => by
      constructor
      · intro h; simp [isJexlAux] at h
      · rintro ⟨pre, x, y, z, post, h, -, -, -⟩
        have hl := congrArg List.length h
        simp at hl; omega
  | [a] => by
      constructor
      · intro h; simp [isJexlAux] at h
      · rintro ⟨pre, x, y, z, post, h, -, -, -⟩
        have hl := congrArg List.length h
        simp at hl; omega
  | [a, b] => by
      constructor
      · intro h; simp [isJexlAux] at h
      · rintro ⟨pre, x, y, z, post, h, -, -, -⟩
        have hl := congrArg List.length h
        simp at hl; omega
  | a :: b :: c :: rest => by
      have ih := isJexlAux_iff (b :: c :: rest)
      constructor
      · intro h
        rw [isJexlAux] at h
        simp only [Bool.or_eq_true] at h
        rcases h with h1 | h2
        · simp only [Bool.and_eq_true, Bool.or_eq_true, beq_iff_eq] at h1
          exact ⟨[], a, b, c, rest, rfl, h1.1.1, h1.1.2, h1.2⟩
        · obtain ⟨pre, x, y, z, post, heq, hx, hy, hz⟩ := ih.mp h2
          exact ⟨a :: pre, x, y, z, post, by simp [heq], hx, hy, hz⟩
      · rintro ⟨pre, x, y, z, post, heq, hx, hy, hz⟩
        cases pre with
        | nil =>
            simp only [List.nil_append] at heq
            injection heq with h1 t1
            injection t1 with h2 t2
            injection t2 with h3 t3
            subst h1; subst h2; subst h3
            rw [isJexlAux]
            rw [Bool.or_eq_true]
            left
            simp only [Bool.and_eq_true, Bool.or_eq_true, beq_iff_eq]
            exact ⟨⟨hx, hy⟩, hz⟩
        | cons p ps =>
            rw [List.cons_append] at heq
            injection heq with h1 t1
            rw [isJexlAux]
            rw [Bool.or_eq_true]
            right
            exact ih.mpr ⟨ps, x, y, z, post, t1, hx, hy, hz⟩

/-- C2: a string is classified as a scripting expression iff it contains
`#` or `$` followed by an opening brace followed by a whitespace
character; the boundary examples behave as stated (`"$\x7b x \x7d"` and
`"#\x7b x \x7d"` are scripts, `"$\x7bx\x7d"`, `"#\x7bx\x7d"` and the
empty string are not). -/
theorem C2_jexl_classification :
    (∀ s : String, is_jexl_expression s = true ↔ JexlSpec s)
    ∧ is_jexl_expression "$\x7b x \x7d" = true
    ∧ is_jexl_expression "#\x7b x \x7d" = true
    ∧ is_jexl_expression "$\x7bx\x7d" = false
    ∧ is_jexl_expression "#\x7bx\x7d" = false
    ∧ is_jexl_expression "" = false :=
  ⟨fun s => isJexlAux_iff s.data, by decide, by decide, by decide, by decide,
    by decide⟩

theorem foldl_params_aux (m : List (String × String)) :
    ∀ (l : List (Xml × List Xml)) (ps : List Parameter) (ss : List Script),
      l.foldl
        (fun acc p =>
          let r := process_single_input_parameter m p
          (acc.1 ++ [r.1],
            match r.2 with
            | some s => acc.2 ++ [s]
            | none => acc.2))
        (ps, ss)
      = (ps ++ (l.map (process_single_input_parameter m)).map Prod.fst,
         ss ++ (l.map (process_single_input_parameter m)).filterMap Prod.snd)
  | [], ps, ss => by simp
  | p :: l, ps, ss => by
      rw [List.foldl_cons]
      cases h : (process_single_input_parameter m p).2 with
      | none =>
          simp only [h]
          rw [foldl_params_aux m l (ps ++ [(process_single_input_parameter m p).1]) ss]
          simp [List.filterMap_cons, h]
      | some s =>
          simp only [h]
          rw [foldl_params_aux m l (ps ++ [(process_single_input_parameter m p).1])
            (ss ++ [s])]
          simp [List.filterMap_cons, h]

theorem extract_input_parameters_eq (root : Xml) (m : List (String × String)) :
    extract_input_parameters root m =
      (((findallCtx root camundaInputParameterTag).map
          (process_single_input_parameter m)).map Prod.fst,
       ((findallCtx root camundaInputParameterTag).map
          (process_single_input_parameter m)).filterMap Prod.snd) := by
  unfold extract_input_parameters
  rw [foldl_params_aux]
  simp

theorem process_single_eq_spec (m : List (String × String)) (p : Xml × List Xml) :
    process_single_input_parameter m p = param_case_spec m p := by
  unfold process_single_input_parameter param_case_spec
  cases h1 : has_script_elem p.1 <;>
    cases h2 : truthyOpt p.1.text <;>
      cases h3 : is_jexl_expression ((p.1.text).getD "") <;>
        simp [h1, h2, h3, process_text_content, process_script_element]

/-- C1: for every camunda inputParameter element, in document order, the
extractor emits exactly one Parameter following the four-case rule of
`param_case_spec` (nested script element wins and emits no Script; else
non-empty scripting-expression text emits the placeholder parameter and
a Script holding the literal text; else non-empty text is the value;
else the value is empty), and the pass's Scripts are exactly those of
the second case. -/
theorem C1_input_parameter_rule (root : Xml) (m : List (String × String)) :
    extract_input_parameters root m =
      (((findallCtx root camundaInputParameterTag).map
          (param_case_spec m)).map Prod.fst,
       ((findallCtx root camundaInputParameterTag).map
          (param_case_spec m)).filterMap Prod.snd) := by
  have hfg : process_single_input_parameter m = param_case_spec m :=
    funext (process_single_eq_spec m)
  rw [extract_input_parameters_eq, hfg]

/-- C10: every extracted Parameter with `has_script = true` carries the
fixed placeholder value, and every Parameter with `has_script = false`
carries either the empty string or the literal text of some
inputParameter element of the document. -/
theorem C10_placeholder_invariant (ctx : BpmnContext) :
    ∀ p ∈ (extract ctx).parameters,
      (p.has_script = true → p.value = JEXL_SCRIPT_PLACEHOLDER)
      ∧ (p.has_script = false → p.value = "" ∨
          ∃ q ∈ findallCtx ctx.root camundaInputParameterTag,
            q.1.text = some p.value) := by
  intro p hp
  have hps : (extract ctx).parameters =
      ((findallCtx ctx.root camundaInputParameterTag).map
        (process_single_input_parameter ctx.id_to_name)).map Prod.fst := by
    show (extract_input_parameters ctx.root ctx.id_to_name).1 = _
    rw [extract_input_parameters_eq]
  rw [hps] at hp
  simp only [List.mem_map] at hp
  obtain ⟨r, ⟨q, hq, hr⟩, hpr⟩ := hp
  subst hr; subst hpr
  unfold process_single_input_parameter
  cases h1 : has_script_elem q.1 with
  | true => simp [h1, process_script_element]
  | false =>
      cases h2 : truthyOpt q.1.text with
      | false => simp [h1, h2]
      | true =>
          unfold process_text_content
          cases h3 : is_jexl_expression ((q.1.text).getD "") with
          | true => simp [h1, h2, h3]
          | false =>
              simp only [h1, h2, h3]
              refine ⟨by simp, fun _ => Or.inr ⟨q, hq, ?_⟩⟩
              cases ht : q.1.text with
              | none => rw [ht] at h2; simp [truthyOpt] at h2
              | some t => simp [ht]

/-- Witness for C10 at a concrete document: the inline-expression
parameter of `c10doc` carries the placeholder value. -/
theorem C10_placeholder_invariant_witness :
    (⟨"Approve", "expr", JEXL_SCRIPT_PLACEHOLDER, true⟩ : Parameter).value
      = JEXL_SCRIPT_PLACEHOLDER :=
  (C10_placeholder_invariant (create_bpmn_context c10doc)
    ⟨"Approve", "expr", JEXL_SCRIPT_PLACEHOLDER, true⟩ (by decide)).1 rfl

theorem process_flow_cond (c : Nat) (f : Xml)
    (h : truthyOpt (flowConditionText f) = true) :
    process_flow c f =
      (⟨getAttr f "sourceRef", getAttr f "targetRef", some (condLabel c),
          flowConditionText f, some c⟩, c + 1) := by
  unfold process_flow
  simp [h]

theorem process_flow_not_cond (c : Nat) (f : Xml)
    (h : truthyOpt (flowConditionText f) = false) :
    (process_flow c f).1.source_id = getAttr f "sourceRef"
    ∧ (process_flow c f).1.target_id = getAttr f "targetRef"
    ∧ (process_flow c f).1.condition = flowConditionText f
    ∧ (process_flow c f).1.condition_number = none
    ∧ (process_flow c f).2 = c
    ∧ (process_flow c f).1.label =
        (if getAttrD f "name" "" == "" then none
         else some (getAttrD f "name" "")) := by
  unfold process_flow
  cases hn : getAttrD f "name" "" == "" <;> simp [h, hn]

theorem process_flow_refs (c : Nat) (f : Xml) :
    (process_flow c f).1.source_id = getAttr f "sourceRef"
    ∧ (process_flow c f).1.target_id = getAttr f "targetRef"
    ∧ (process_flow c f).1.condition = flowConditionText f := by
  unfold process_flow
  cases h : truthyOpt (flowConditionText f) <;>
    cases hn : getAttrD f "name" "" == "" <;> simp [h, hn]

theorem build_edges_length : ∀ (fs : List Xml) (c : Nat),
    (build_edges c fs).length = fs.length
  | [], _ => rfl
  | f :: fs, c => by
      rw [build_edges]
      simp [build_edges_length fs]

theorem build_edges_numbers : ∀ (fs : List Xml) (c : Nat),
    (build_edges c fs).filterMap BpmnEdge.condition_number =
      List.range' c (fs.countP (fun f => truthyOpt (flowConditionText f)))
  | [], c => by simp [build_edges]
  | f :: fs, c => by
      rw [build_edges, List.countP_cons]
      cases h : truthyOpt (flowConditionText f) with
      | true =>
          rw [process_flow_cond c f h]
          simp only [List.filterMap_cons, h, if_true]
          rw [build_edges_numbers fs (c + 1)]
          rw [List.range'_succ]
      | false =>
          obtain ⟨-, -, -, h4, h5, -⟩ := process_flow_not_cond c f h
          simp only [List.filterMap_cons, h4, h5, h, if_false]
          rw [build_edges_numbers fs c]
          simp

theorem build_edges_label (fs : List Xml) : ∀ (c : Nat),
    ∀ e ∈ build_edges c fs, ∀ n, e.condition_number = some n →
      e.label = some (condLabel n) := by
  induction fs with
  | nil => intro c e he; cases he
  | cons f fs ih =>
      intro c e he n hn
      rw [build_edges] at he
      rcases List.mem_cons.mp he with h | h
      · subst h
        cases hc : truthyOpt (flowConditionText f) with
        | true =>
            rw [process_flow_cond c f hc] at hn ⊢
            simp only at hn ⊢
            simp at hn
            simp [hn]
        | false =>
            obtain ⟨-, -, -, h4, -, -⟩ := process_flow_not_cond c f hc
            rw [h4] at hn
            cases hn
      · exact ih (process_flow c f).2 e h n hn

theorem build_edges_zip (fs : List Xml) : ∀ (c : Nat),
    ∀ p ∈ (build_edges c fs).zip fs,
      p.1.source_id = getAttr p.2 "sourceRef"
      ∧ p.1.target_id = getAttr p.2 "targetRef"
      ∧ p.1.condition = flowConditionText p.2
      ∧ (truthyOpt (flowConditionText p.2) = false →
          p.1.condition_number = none
          ∧ p.1.label =
              (if getAttrD p.2 "name" "" == "" then none
               else some (getAttrD p.2 "name" ""))) := by
  induction fs with
  | nil => intro c p hp; simp [build_edges] at hp
  | cons f fs ih =>
      intro c p hp
      rw [build_edges, List.zip_cons_cons] at hp
      rcases List.mem_cons.mp hp with h | h
      · subst h
        obtain ⟨h1, h2, h3⟩ := process_flow_refs c f
        refine ⟨h1, h2, h3, fun hc => ?_⟩
        obtain ⟨-, -, -, h4, -, h6⟩ := process_flow_not_cond c f hc
        exact ⟨h4, h6⟩
      · exact ih (process_flow c f).2 p h

theorem build_edges_cond_iff (fs : List Xml) : ∀ (c : Nat),
    ∀ e ∈ build_edges c fs,
      (∃ n, e.condition_number = some n) ↔
        (∃ s, e.condition = some s ∧ s ≠ "") := by
  induction fs with
  | nil => intro c e he; cases he
  | cons f fs ih =>
      intro c e he
      rw [build_edges] at he
      rcases List.mem_cons.mp he with h | h
      · subst h
        cases hc : truthyOpt (flowConditionText f) with
        | true =>
            rw [process_flow_cond c f hc]
            cases ht : flowConditionText f with
            | none => rw [ht] at hc; simp [truthyOpt] at hc
            | some s =>
                rw [ht] at hc
                simp [truthyOpt] at hc
                constructor
                · rintro -
                  exact ⟨s, by simp [ht], hc⟩
                · rintro -
                  exact ⟨c, rfl⟩
        | false =>
            obtain ⟨-, -, h3, h4, -, -⟩ := process_flow_not_cond c f hc
            rw [h3, h4]
            constructor
            · rintro ⟨n, hn⟩; cases hn
            · rintro ⟨s, hs, hne⟩
              rw [hs] at hc
              simp [truthyOpt] at hc
              exact absurd hc hne
      · exact ih (process_flow c f).2 e h

theorem flowCond_truthy_iff (f : Xml) :
    truthyOpt (flowConditionText f) = true ↔
      ∃ ce t, (findall f conditionExpressionTag).head? = some ce ∧
        ce.text = some t ∧ t ≠ "" ∧ pyStrip t ≠ "" := by
  unfold flowConditionText
  cases hh : (findall f conditionExpressionTag).head? with
  | none => simp [truthyOpt]
  | some ce =>
      cases ht : ce.text with
      | none => simp [truthyOpt, ht]
      | some t =>
          by_cases h0 : t = ""
          · subst h0
            simp [truthyOpt, ht]
          · simp [truthyOpt, ht, h0]

/-- C3: edge extraction yields one edge per sequence flow; the
condition numbers of the conditioned edges (those whose condition
expression is non-empty after trimming) are exactly 1..N in document
order, independent of interleaving; each conditioned edge is labelled
`[N]`; an unconditioned edge takes its non-empty `name` attribute as
label and otherwise has none. -/
theorem C3_condition_numbering (ctx : BpmnContext) :
    ((build_model ctx).1.edges.length
        = (findall ctx.root sequenceFlowTag).length)
    ∧ ((build_model ctx).1.edges.filterMap BpmnEdge.condition_number =
        List.range' 1 ((findall ctx.root sequenceFlowTag).countP
          (fun f => truthyOpt (flowConditionText f))))
    ∧ (∀ e ∈ (build_model ctx).1.edges, ∀ n, e.condition_number = some n →
        e.label = some (condLabel n))
    ∧ (∀ p ∈ ((build_model ctx).1.edges).zip
          (findall ctx.root sequenceFlowTag),
        truthyOpt (flowConditionText p.2) = false →
          p.1.condition_number = none
          ∧ p.1.label = (if getAttrD p.2 "name" "" == "" then none
              else some (getAttrD p.2 "name" "")))
    ∧ (∀ f : Xml, truthyOpt (flowConditionText f) = true ↔
        ∃ ce t, (findall f conditionExpressionTag).head? = some ce ∧
          ce.text = some t ∧ t ≠ "" ∧ pyStrip t ≠ "") := by
  refine ⟨build_edges_length _ 1, build_edges_numbers _ 1,
    build_edges_label _ 1, ?_, fun f => flowCond_truthy_iff f⟩
  intro p hp hc
  exact (build_edges_zip _ 1 p hp).2.2.2 hc

/-- Witness for C3 at `c3doc` (conditioned, named, conditioned flows):
the condition numbers are `[1, 2]` and the first conditioned edge is
labelled `[1]`. -/
theorem C3_condition_numbering_witness :
    ((build_model (create_bpmn_context c3doc)).1.edges.filterMap
        BpmnEdge.condition_number = [1, 2])
    ∧ (⟨some "a", some "b", some "[1]", some "x > 1", some 1⟩ : BpmnEdge).label
        = some (condLabel 1) := by
  constructor
  · rw [(C3_condition_numbering (create_bpmn_context c3doc)).2.1]
    decide
  · exact (C3_condition_numbering (create_bpmn_context c3doc)).2.2.1
      ⟨some "a", some "b", some "[1]", some "x > 1", some 1⟩ (by decide) 1 rfl

/-- C5 counterexample: in `c5doc` the one sequence flow's condition
element contains only whitespace, yet the built edge's `condition` field
is `some ""` — the condition expression IS set (to the empty string), so
the edge does not have "neither condition nor condition_number" as the
claim states. -/
theorem C5_counterexample :
    ((build_model (create_bpmn_context c5doc)).1.edges.map BpmnEdge.condition
        = [some ""])
    ∧ ¬ ((build_model (create_bpmn_context c5doc)).1.edges.map
        BpmnEdge.condition = [none]) :=
  ⟨by decide, by decide⟩

/-- C5 amended: `condition_number` is set iff the edge's (already
trimmed) condition expression is set and non-empty; a sequence flow
whose condition element contains only whitespace yields an edge whose
condition is the empty string — set but empty — and no
`condition_number`. -/
theorem C5_condition_invariant_amended (ctx : BpmnContext) :
    (∀ e ∈ (build_model ctx).1.edges,
      ((∃ n, e.condition_number = some n) ↔
        (∃ s, e.condition = some s ∧ s ≠ "")))
    ∧ (∀ p ∈ ((build_model ctx).1.edges).zip
          (findall ctx.root sequenceFlowTag),
        flowConditionText p.2 = some "" →
          p.1.condition = some "" ∧ p.1.condition_number = none) := by
  constructor
  · exact build_edges_cond_iff _ 1
  · intro p hp hcond
    obtain ⟨-, -, h3, h4⟩ := build_edges_zip _ 1 p hp
    have hfalse : truthyOpt (flowConditionText p.2) = false := by
      rw [hcond]; simp [truthyOpt]
    obtain ⟨hn, -⟩ := h4 hfalse
    exact ⟨by rw [h3, hcond], hn⟩

/-- Witness for the amended C5 at `c5doc`: the edge built from the
whitespace-only condition (condition `some ""`) has no condition
number. -/
theorem C5_condition_invariant_amended_witness :
    ¬ ∃ n, (⟨some "a", some "b", none, some "", none⟩ :
        BpmnEdge).condition_number = some n := by
  intro h
  have hiff := (C5_condition_invariant_amended (create_bpmn_context c5doc)).1
    ⟨some "a", some "b", none, some "", none⟩ (by decide)
  obtain ⟨s, hs, hne⟩ := hiff.mp h
  apply hne
  have hc : (⟨some "a", some "b", none, some "", none⟩ :
      BpmnEdge).condition = some "" := rfl
  rw [hc] at hs
  exact (Option.some.inj hs).symm

/-- C7: extraction is non-fatal: the model holds one edge per sequence
flow with `sourceRef`/`targetRef` copied verbatim (absent attributes are
recorded as empty/None ids); the validator neither removes nor mutates
nodes or edges (the model is exactly the extracted data) and only
contributes warning strings; an edge with truthy ids both present in the
node-id set produces no warning at all. -/
theorem C7_nonfatal_extraction (ctx : BpmnContext) :
    ((build_model ctx).1.edges.length
        = (findall ctx.root sequenceFlowTag).length)
    ∧ (∀ p ∈ ((build_model ctx).1.edges).zip
          (findall ctx.root sequenceFlowTag),
        p.1.source_id = getAttr p.2 "sourceRef"
        ∧ p.1.target_id = getAttr p.2 "targetRef")
    ∧ (build_model ctx).1.nodes = extract_all_nodes ctx.root
    ∧ (build_model ctx).1.edges
        = build_edges 1 (findall ctx.root sequenceFlowTag)
    ∧ (build_model ctx).2 =
        (validate_node_ids (extract_all_nodes ctx.root)).2 ++
          validate_edge_references
            (build_edges 1 (findall ctx.root sequenceFlowTag))
            (validate_node_ids (extract_all_nodes ctx.root)).1 ctx.id_to_name
    ∧ (∀ e : BpmnEdge, truthyOpt e.source_id = true →
        (validate_node_ids (extract_all_nodes ctx.root)).1.contains
          ((e.source_id).getD "") = true →
        truthyOpt e.target_id = true →
        (validate_node_ids (extract_all_nodes ctx.root)).1.contains
          ((e.target_id).getD "") = true →
        edge_warnings (validate_node_ids (extract_all_nodes ctx.root)).1
          ctx.id_to_name e = []) := by
  refine ⟨build_edges_length _ 1, ?_, rfl, rfl, rfl, ?_⟩
  · intro p hp
    obtain ⟨h1, h2, -⟩ := build_edges_zip _ 1 p hp
    exact ⟨h1, h2⟩
  · intro e h1 h2 h3 h4
    unfold edge_warnings
    simp [h1, h3]
    exact ⟨by simpa using h2, by simpa using h4⟩

/-- Witness for C7 at `c7doc` (flow with missing `sourceRef` and
dangling `targetRef`): the model still holds one edge, and a
fully-resolved edge over the same node set yields no warning. -/
theorem C7_nonfatal_extraction_witness :
    ((build_model (create_bpmn_context c7doc)).1.edges.length = 1)
    ∧ edge_warnings
        (validate_node_ids (extract_all_nodes c7doc)).1
        (create_bpmn_context c7doc).id_to_name
        ⟨some "T1", some "T1", none, none, none⟩ = [] := by
  constructor
  · rw [(C7_nonfatal_extraction (create_bpmn_context c7doc)).1]
    decide
  · exact (C7_nonfatal_extraction (create_bpmn_context c7doc)).2.2.2.2.2
      ⟨some "T1", some "T1", none, none, none⟩
      (by decide) (by decide) (by decide) (by decide)

theorem find?_first {α : Type} (pb : α → Bool) :
    ∀ (pre : List α) (x : α) (post : List α),
      (∀ y ∈ pre, pb y = false) → pb x = true →
      (pre ++ x :: post).find? pb = some x
  | [], x, post => fun _ hx => by
      simp only [List.nil_append]
      exact List.find?_cons_of_pos post hx
  | y :: ys, x, post => fun h hx => by
      have hy : pb y = false := h y (by simp)
      rw [List.cons_append, List.find?_cons_of_neg _ (by simp [hy])]
      exact find?_first pb ys x post (fun z hz => h z (by simp [hz])) hx

/-- C4 counterexample: on an element whose own `id` attribute is present
but EMPTY, inside a parent carrying id "P" mapped to "ParentName", the
code resolves the node name to "" (its walk stops at any present `id`,
empty included), while the claim's walk — stop only at a non-empty
`id` — would resolve to "ParentName". -/
theorem C4_counterexample :
    (get_node_info c4child [c4parent] c4table).1 = ""
    ∧ claim_node_name c4child [c4parent] c4table = "ParentName"
    ∧ ("" : String) ≠ "ParentName" :=
  ⟨by decide, by decide, by decide⟩

/-- C4 amended: the walk stops at the first element of
element→parent→… whose attribute dict contains `id` (empty or not); if
the walk is exhausted the sentinel "unknown" is used as the id; the
resulting id is then mapped through the id→name table, falling back to
the id itself; the parameter name is the element's `name` attribute with
the fixed default. -/
theorem C4_parent_walk_amended (e : Xml) (anc : List Xml)
    (m : List (String × String)) :
    ((∀ x ∈ e :: anc, getAttr x "id" = none) →
        find_parent_with_id e anc = UNKNOWN_VALUE
        ∧ (get_node_info e anc m).1 = dictGetD m UNKNOWN_VALUE UNKNOWN_VALUE)
    ∧ (∀ pre x post, e :: anc = pre ++ x :: post →
        (∀ y ∈ pre, getAttr y "id" = none) →
        ∀ s, getAttr x "id" = some s →
          find_parent_with_id e anc = s
          ∧ (get_node_info e anc m).1 = dictGetD m s s)
    ∧ (get_node_info e anc m).2 = getAttrD e "name" DEFAULT_PARAM_NAME := by
  refine ⟨?_, ?_, rfl⟩
  · intro h
    have hnone : (e :: anc).find? (fun x => (getAttr x "id").isSome) = none := by
      rw [List.find?_eq_none]
      intro x hx
      simp [h x hx]
    have h1 : find_parent_with_id e anc = UNKNOWN_VALUE := by
      unfold find_parent_with_id
      rw [hnone]
    exact ⟨h1, by simp [get_node_info, h1]⟩
  · intro pre x post heq hpre s hs
    have hfind : (e :: anc).find? (fun y => (getAttr y "id").isSome) = some x := by
      rw [heq]
      exact find?_first _ pre x post (fun y hy => by simp [hpre y hy])
        (by simp [hs])
    have h1 : find_parent_with_id e anc = s := by
      unfold find_parent_with_id
      rw [hfind]
      simp [getAttrD, hs]
    exact ⟨h1, by simp [get_node_info, h1]⟩

/-- Witness for the amended C4: the walk stops at `c4child`'s own empty
id and resolves through the table with the empty id as key. -/
theorem C4_parent_walk_amended_witness :
    find_parent_with_id c4child [c4parent] = ""
    ∧ (get_node_info c4child [c4parent] c4table).1 = dictGetD c4table "" "" :=
  (C4_parent_walk_amended c4child [c4parent] c4table).2.1 [] c4child [c4parent]
    rfl (by simp) "" rfl

/-- C6: the extractor's output ordering is fixed: the nodes list is all
call activities in document order followed by all service tasks in
document order, and the scripts list is all standalone-script-element
Scripts followed by all text-derived Scripts, each group in document
order. -/
theorem C6_output_ordering (ctx : BpmnContext) :
    (extract ctx).nodes =
      (findall ctx.root callActivityTag).map create_call_activity_node ++
        (findall ctx.root serviceTaskTag).map create_service_task_node
    ∧ (extract ctx).scripts =
        extract_script_elements ctx.root ctx.id_to_name ++
          ((findallCtx ctx.root camundaInputParameterTag).map
            (process_single_input_parameter ctx.id_to_name)).filterMap
            Prod.snd := by
  constructor
  · rfl
  · show extract_script_elements ctx.root ctx.id_to_name ++
        (extract_input_parameters ctx.root ctx.id_to_name).2 = _
    rw [extract_input_parameters_eq]

theorem find?_map_exists {α β : Type} (f : α → β) (pb : β → Bool) :
    ∀ l : List α, (∃ x ∈ l, pb (f x) = true) →
      ∃ x ∈ l, pb (f x) = true ∧ (l.map f).find? pb = some (f x)
  | [] => by rintro ⟨x, hx, -⟩; cases hx
  | a :: as => by
      rintro ⟨x, hx, hpx⟩
      cases ha : pb (f a) with
      | true =>
          refine ⟨a, by simp, ha, ?_⟩
          rw [List.map_cons]
          exact List.find?_cons_of_pos _ ha
      | false =>
          have hxas : x ∈ as := by
            rcases List.mem_cons.mp hx with h | h
            · subst h; rw [hpx] at ha; cases ha
            · exact h
          obtain ⟨y, hy, hpy, hfind⟩ := find?_map_exists f pb as ⟨x, hxas, hpx⟩
          refine ⟨y, by simp [hy], hpy, ?_⟩
          rw [List.map_cons, List.find?_cons_of_neg _ (by simp [ha])]
          exact hfind

/-- C8: the conversion core builds the context once and the same context
is consumed by both extractors; the context's id→name index maps the id
of every element carrying one to that element's name (falling back to
the id), the binding coming from an element of the document that indeed
carries that id. -/
theorem C8_single_parse_shared_context (root : Xml) :
    (convert_bpmn_core root).1 = build_model (create_bpmn_context root)
    ∧ (convert_bpmn_core root).2 = extract (create_bpmn_context root)
    ∧ (create_bpmn_context root).root = root
    ∧ ∀ e ∈ xmlDescendants root, ∀ i, getAttr e "id" = some i →
        ∃ e2, e2 ∈ xmlDescendants root ∧ getAttr e2 "id" = some i ∧
          dictGet (create_bpmn_context root).id_to_name i =
            some (getAttrD e2 "name" i) := by
  refine ⟨rfl, rfl, rfl, ?_⟩
  intro e he i hi
  have hel : e ∈ (xmlDescendants root).filter
      (fun x => (getAttr x "id").isSome) :=
    List.mem_filter.mpr ⟨he, by simp [hi]⟩
  have helr : e ∈ ((xmlDescendants root).filter
      (fun x => (getAttr x "id").isSome)).reverse := List.mem_reverse.mpr hel
  have hpe : ((getAttrD e "id" "") == i) = true := by simp [getAttrD, hi]
  obtain ⟨y, hy, hpy, hfind⟩ := find?_map_exists
    (fun x => (getAttrD x "id" "", getAttrD x "name" (getAttrD x "id" "")))
    (fun p => p.1 == i) _ ⟨e, helr, hpe⟩
  have hyl : y ∈ (xmlDescendants root).filter
      (fun x => (getAttr x "id").isSome) := List.mem_reverse.mp hy
  have hymem : y ∈ xmlDescendants root := (List.mem_filter.mp hyl).1
  have hysome : (getAttr y "id").isSome = true := (List.mem_filter.mp hyl).2
  have hkey : getAttrD y "id" "" = i := by simpa using hpy
  have hyid : getAttr y "id" = some i := by
    cases hg : getAttr y "id" with
    | none => rw [hg] at hysome; cases hysome
    | some t =>
        simp only [getAttrD, hg, Option.getD_some] at hkey
        rw [hkey]
  refine ⟨y, hymem, hyid, ?_⟩
  show ((build_id_to_name_mapping root).reverse.find?
      (fun p => p.1 == i)).map Prod.snd = _
  rw [build_id_to_name_mapping, ← List.map_reverse, hfind]
  simp [hkey]

/-- Witness for C8: in the document `c4parent` the (empty) id of
`c4child` is a key of the index, bound to that element's name-or-id. -/
theorem C8_single_parse_shared_context_witness :
    ∃ e2, e2 ∈ xmlDescendants c4parent ∧ getAttr e2 "id" = some "" ∧
      dictGet (create_bpmn_context c4parent).id_to_name "" =
        some (getAttrD e2 "name" "") :=
  (C8_single_parse_shared_context c4parent).2.2.2 c4child
    (List.mem_singleton.mpr rfl) "" rfl

/-- C9 (code bug): `pdf._create_condition_table` reads the attribute
`num`, which the `Condition` dataclass does not define (its field is
`number`); with a real `Condition` value the table build raises
`AttributeError` instead of producing the `[str(number), expression]`
row the claim describes. -/
theorem C9_condition_table_attribute_error :
    create_condition_table [⟨1, "s", "t", "x > 0"⟩] =
      Except.error "AttributeError: Condition has no attribute num"
    ∧ build_body_condition_table [⟨1, "s", "t", "x > 0"⟩] =
      Except.error "AttributeError: Condition has no attribute num"
    ∧ conditionAttr ⟨1, "s", "t", "x > 0"⟩ "num" = none
    ∧ conditionAttr ⟨1, "s", "t", "x > 0"⟩ "number" = some (.vInt 1) :=
  ⟨rfl, rfl, by decide, by decide⟩

end BpmnPrint
